import Mathlib

/-!
Shallow embedding of the round-robin HTTP load balancer (`loadbalancer.go`)
and proofs of its specified properties.

The Go program keeps an ordered pool of backends, each with a mutable
liveness flag, and a rotation cursor.  `getNextBackend` scans at most
`len(backends)` candidates starting at the cursor and returns the first
alive one, advancing the cursor past it; `healthCheck` probes every backend
and rewrites its liveness flag from the probe outcome; `ServeHTTP` either
forwards to the proxy of the selected backend or answers 503.

Locks (`sync.Mutex`, `sync.RWMutex`) serialize access in Go; here each
operation is modelled as a pure state transformer on the pool, which is the
sequential behaviour those critical sections guarantee.  External effects
are parameters: URL parsing outcomes become a predicate `parseOK`, the
health probe (`http.Get`) becomes a function `probe : String → ProbeResult`,
and log lines become explicit event values.
-/

namespace LB

/-- A single upstream target: its address, its forwarding capability
(`httputil.ReverseProxy`, modelled as the address it is bound to), and the
mutable liveness flag (guarded by `b.mux` in Go). -/
structure Backend where
  URL : String
  Proxy : String
  Alive : Bool
  deriving DecidableEq, Repr

/-- `func (b *Backend) SetAlive(alive bool)`: write the liveness flag. -/
def Backend.SetAlive (b : Backend) (alive : Bool) : Backend :=
  { b with Alive := alive }

/-- `func (b *Backend) IsAlive() bool`: read the liveness flag. -/
def Backend.IsAlive (b : Backend) : Bool :=
  b.Alive

/-- The pool: ordered backends plus the rotation cursor `current`
(guarded by `lb.mux` in Go). -/
structure LoadBalancer where
  backends : List Backend
  current : Nat
  deriving DecidableEq, Repr

/-- The loop body of `NewLoadBalancer`: for each configured address, if it
parses, append a backend (alive, proxy bound to the address); if parsing
fails, log and `continue` (skip it).  `parseOK` abstracts whether
`url.Parse` succeeds on the address. -/
def addBackends (parseOK : String → Bool) : List String → List Backend
  | [] => []
  | u :: rest =>
    if parseOK u then
      { URL := u, Proxy := u, Alive := true } :: addBackends parseOK rest
    else
      addBackends parseOK rest

/-- `func NewLoadBalancer(backendURLs []string) *LoadBalancer`. -/
def NewLoadBalancer (parseOK : String → Bool) (backendURLs : List String) :
    LoadBalancer :=
  { backends := addBackends parseOK backendURLs, current := 0 }

/-- The scan loop of `getNextBackend`: `for i := 0; i < len(lb.backends); i++`,
iterated here over the list of loop indices `is` (instantiated with
`List.range lb.backends.length`).  Each iteration examines index
`(current + i) % len(backends)` and returns it if that backend is alive. -/
def scanBackends (backends : List Backend) (current : Nat) :
    List Nat → Option Nat
  | [] => none
  | i :: rest =>
    let idx := (current + i) % backends.length
    match backends[idx]? with
    | some b => if b.IsAlive then some idx else scanBackends backends current rest
    | none => scanBackends backends current rest

/-- `func (lb *LoadBalancer) getNextBackend() *Backend`: scan up to
`len(backends)` candidates from the cursor; on success set
`current = (idx + 1) % len(backends)` and return the backend, otherwise
return `nil` (`none`) leaving the state untouched. -/
def getNextBackend (lb : LoadBalancer) : Option Backend × LoadBalancer :=
  match scanBackends lb.backends lb.current (List.range lb.backends.length) with
  | some idx =>
    (lb.backends[idx]?, { lb with current := (idx + 1) % lb.backends.length })
  | none => (none, lb)

/-- `n` consecutive `getNextBackend` calls: the list of results in order and
the final pool state. -/
def selectSeq : LoadBalancer → Nat → List (Option Backend) × LoadBalancer
  | lb, 0 => ([], lb)
  | lb, n + 1 =>
    let r := getNextBackend lb
    let rest := selectSeq r.2 n
    (r.1 :: rest.1, rest.2)

/-- Helper list update: `lb.backends[k].SetAlive(alive)` through the pool
(the Go health checker mutates a backend in place via its pointer). -/
def setAliveAt : List Backend → Nat → Bool → List Backend
  | [], _, _ => []
  | b :: rest, 0, alive => b.SetAlive alive :: rest
  | b :: rest, k + 1, alive => b :: setAliveAt rest k alive

/-- The pool after `SetAlive` is called on the backend at index `k`.
The cursor is not touched by `SetAlive`. -/
def LoadBalancer.setBackendAlive (lb : LoadBalancer) (k : Nat) (alive : Bool) :
    LoadBalancer :=
  { lb with backends := setAliveAt lb.backends k alive }

/-- Outcome of one health probe (`http.Get(backend.URL)`): a transport
error, or a response carrying a status code. -/
inductive ProbeResult where
  | failure
  | response (status : Nat)
  deriving DecidableEq, Repr

/-- The log lines the health checker emits, as events. -/
inductive LogEvent where
  | infoRunningChecks
  | warnCheckFailed (url : String)
  | warnBadStatus (url : String) (status : Nat)
  | infoRecovered (url : String)
  | infoCycleComplete (alive total : Nat)
  deriving DecidableEq, Repr

/-- One iteration of the `healthCheck` loop body for backend `b`: probe
failure or non-200 status set `Alive := false` with a WARN log; a 200
response logs a recovery notice when the backend was not alive, then sets
`Alive := true` and counts it alive.  Returns the updated backend, its log
events, and its contribution to `aliveCount`. -/
def checkBackend (probe : String → ProbeResult) (b : Backend) :
    Backend × List LogEvent × Nat :=
  match probe b.URL with
  | ProbeResult.failure =>
    (b.SetAlive false, [LogEvent.warnCheckFailed b.URL], 0)
  | ProbeResult.response status =>
    if status ≠ 200 then
      (b.SetAlive false, [LogEvent.warnBadStatus b.URL status], 0)
    else
      (b.SetAlive true,
        if !b.IsAlive then [LogEvent.infoRecovered b.URL] else [],
        1)

/-- The `for _, backend := range lb.backends` loop of `healthCheck`:
updated backends, concatenated log events, and the final `aliveCount`. -/
def healthCheckLoop (probe : String → ProbeResult) :
    List Backend → List Backend × List LogEvent × Nat
  | [] => ([], [], 0)
  | b :: rest =>
    let r := checkBackend probe b
    let rr := healthCheckLoop probe rest
    (r.1 :: rr.1, r.2.1 ++ rr.2.1, r.2.2 + rr.2.2)

/-- `func (lb *LoadBalancer) healthCheck()`: log the cycle start, probe
every backend in pool order, then log `aliveCount/total`. -/
def LoadBalancer.healthCheck (probe : String → ProbeResult)
    (lb : LoadBalancer) : LoadBalancer × List LogEvent :=
  let r := healthCheckLoop probe lb.backends
  ({ lb with backends := r.1 },
    LogEvent.infoRunningChecks :: r.2.1
      ++ [LogEvent.infoCycleComplete r.2.2 lb.backends.length])

/-- An inbound HTTP request, reduced to the fields the dispatcher reads. -/
structure HTTPRequest where
  method : String
  path : String
  deriving DecidableEq, Repr

/-- What `ServeHTTP` does with a request: answer it directly with an error
status and plain-text body, or hand it to the reverse proxy of a backend. -/
inductive DispatchResult where
  | unavailable (status : Nat) (body : String)
  | forwardedTo (proxy : String)
  deriving DecidableEq, Repr

/-- `http.StatusServiceUnavailable`. -/
def StatusServiceUnavailable : Nat := 503

/-- `func (lb *LoadBalancer) ServeHTTP(w, r)`: select a backend; if none,
reply 503 "Service unavailable - all backends are down" and do not forward;
otherwise forward the request to the proxy of the selected backend. -/
def LoadBalancer.ServeHTTP (lb : LoadBalancer) (_r : HTTPRequest) :
    DispatchResult × LoadBalancer :=
  match getNextBackend lb with
  | (none, lb2) =>
    (DispatchResult.unavailable StatusServiceUnavailable
      "Service unavailable - all backends are down", lb2)
  | (some b, lb2) => (DispatchResult.forwardedTo b.Proxy, lb2)

/-- The observable startup-sequencing actions of `main` and
`startHealthChecks`, as events in program order. -/
inductive StartupEvent where
  | ranInitialHealthCheck
  | startedPeriodicHealthChecks (intervalSeconds : Nat)
  | startedStatsTicker (intervalSeconds : Nat)
  | listening (port : String)
  deriving DecidableEq, Repr

/-- `func (lb *LoadBalancer) startHealthChecks(interval time.Duration)`:
the synchronous actions it performs before returning.  It creates a ticker
and spawns a goroutine that runs `healthCheck` on each tick (the first tick
fires one full interval later); it does not itself call `healthCheck`
before the ticker loop, so the only startup event is starting the
scheduler. -/
def startHealthChecksEvents (intervalSeconds : Nat) : List StartupEvent :=
  [StartupEvent.startedPeriodicHealthChecks intervalSeconds]

/-- `strings.Split(s, ",")` on the underlying character list: split into
the (possibly empty) segments between commas. -/
def splitCommaAux : List Char → List (List Char)
  | [] => [[]]
  | c :: rest =>
    let r := splitCommaAux rest
    if c = ',' then [] :: r
    else
      match r with
      | [] => [[c]]
      | h :: t => (c :: h) :: t

/-- `strings.Split(backendsEnv, ",")`. -/
def splitComma (s : String) : List String :=
  (splitCommaAux s.data).map List.asString

/-- Result of the startup path of `main`: a `log.Fatal` with its message, or a
running server with the startup events in order and the pool state at the
moment `ListenAndServe` is entered. -/
inductive StartupOutcome where
  | fatal (msg : String)
  | running (events : List StartupEvent) (lb : LoadBalancer)
  deriving DecidableEq, Repr

/-- `func main()`: check `Backend_URLs` and `PORT` (empty means unset),
split the address list on commas, build the pool, die if no backend
parsed, run one synchronous `healthCheck`, start the periodic checker
(10s) and the stats ticker (30s), then listen on the port. -/
def mainStartup (Port backendsEnv : String) (parseOK : String → Bool)
    (probe : String → ProbeResult) : StartupOutcome :=
  if backendsEnv = "" then
    StartupOutcome.fatal "Backend_URLs environment variable not set"
  else if Port = "" then
    StartupOutcome.fatal "PORT environment variable not set"
  else
    let backendURLs := splitComma backendsEnv
    let lb := NewLoadBalancer parseOK backendURLs
    if lb.backends.length = 0 then
      StartupOutcome.fatal "No valid backend servers configured!"
    else
      let hc := LoadBalancer.healthCheck probe lb
      StartupOutcome.running
        (StartupEvent.ranInitialHealthCheck :: startHealthChecksEvents 10
          ++ [StartupEvent.startedStatsTicker 30, StartupEvent.listening Port])
        hc.1

/-- Spec-side classification of a probe outcome as a success
(`http.StatusOK`, i.e. exactly 200). -/
def probeSuccess : ProbeResult → Bool
  | ProbeResult.failure => false
  | ProbeResult.response status => status == 200

/-- Count of recovery notices for `url` among logged events. -/
def recoveryCount (url : String) (logs : List LogEvent) : Nat :=
  logs.count (LogEvent.infoRecovered url)

end LB

namespace LB

example :
    getNextBackend ⟨[⟨"a", "a", true⟩, ⟨"b", "b", false⟩, ⟨"c", "c", true⟩], 0⟩
      = (some ⟨"a", "a", true⟩,
         ⟨[⟨"a", "a", true⟩, ⟨"b", "b", false⟩, ⟨"c", "c", true⟩], 1⟩) := by
  decide

example :
    getNextBackend ⟨[⟨"a", "a", true⟩, ⟨"b", "b", false⟩, ⟨"c", "c", true⟩], 1⟩
      = (some ⟨"c", "c", true⟩,
         ⟨[⟨"a", "a", true⟩, ⟨"b", "b", false⟩, ⟨"c", "c", true⟩], 0⟩) := by
  decide

example :
    getNextBackend ⟨[⟨"a", "a", false⟩, ⟨"b", "b", false⟩], 1⟩
      = (none, ⟨[⟨"a", "a", false⟩, ⟨"b", "b", false⟩], 1⟩) := by
  decide

example : getNextBackend ⟨[], 0⟩ = (none, ⟨[], 0⟩) := by decide

/-- A successful scan returns an index holding an alive backend. -/
lemma scanBackends_some_alive {backends : List Backend} {current : Nat}
    {is : List Nat} {idx : Nat}
    (h : scanBackends backends current is = some idx) :
    ∃ b, backends[idx]? = some b ∧ b.Alive = true := by
  induction is with
  | nil => simp [scanBackends] at h
  | cons i rest ih =>
    rw [scanBackends] at h
    rcases hb : backends[(current + i) % backends.length]? with _ | b
    · simp only [hb] at h
      exact ih h
    · simp only [hb] at h
      by_cases ha : b.IsAlive = true
      · rw [if_pos ha] at h
        obtain rfl : (current + i) % backends.length = idx := by
          exact Option.some.inj h
        exact ⟨b, hb, ha⟩
      · rw [if_neg ha] at h
        exact ih h

/-- If every backend in the pool is dead, every scan fails. -/
lemma scanBackends_all_dead {backends : List Backend} {current : Nat}
    (hdead : ∀ b ∈ backends, b.Alive = false) (is : List Nat) :
    scanBackends backends current is = none := by
  induction is with
  | nil => rfl
  | cons i rest ih =>
    rw [scanBackends]
    rcases hb : backends[(current + i) % backends.length]? with _ | b
    · simp only [hb]
      exact ih
    · have hmem : b ∈ backends := List.getElem?_mem hb
      have hdb : b.IsAlive = false := hdead b hmem
      simp only [hb, hdb]
      simpa using ih

/-- `getNextBackend` never changes the backend list. -/
lemma getNextBackend_backends (lb : LoadBalancer) :
    (getNextBackend lb).2.backends = lb.backends := by
  rw [getNextBackend]
  rcases scanBackends lb.backends lb.current (List.range lb.backends.length) with
    _ | idx <;> rfl

/-- Any backend returned by `getNextBackend` has its alive flag set. -/
lemma getNextBackend_some_alive {lb : LoadBalancer} {b : Backend}
    (h : (getNextBackend lb).1 = some b) : b.Alive = true := by
  rw [getNextBackend] at h
  rcases hs : scanBackends lb.backends lb.current (List.range lb.backends.length)
    with _ | idx
  · rw [hs] at h
    simp at h
  · rw [hs] at h
    simp only at h
    obtain ⟨b', hb', halive⟩ := scanBackends_some_alive hs
    rw [hb'] at h
    cases h
    exact halive

/-- On an all-dead pool `getNextBackend` returns `none` and leaves the
state (cursor included) untouched. -/
lemma getNextBackend_all_dead {lb : LoadBalancer}
    (hdead : ∀ b ∈ lb.backends, b.Alive = false) :
    getNextBackend lb = (none, lb) := by
  rw [getNextBackend, scanBackends_all_dead hdead]

/-- On a pool whose backends are all alive, with the cursor in range, the
scan succeeds immediately at the index the cursor points to. -/
lemma scanBackends_all_alive {backends : List Backend} {c : Nat}
    (hc : c < backends.length) (halive : ∀ b ∈ backends, b.Alive = true) :
    scanBackends backends c (List.range backends.length) = some c := by
  obtain ⟨m, hm⟩ : ∃ m, backends.length = m + 1 :=
    ⟨backends.length - 1, by omega⟩
  rw [hm, List.range_succ_eq_map]
  rw [scanBackends]
  have hidx : (c + 0) % backends.length = c := by
    rw [Nat.add_zero, Nat.mod_eq_of_lt hc]
  rw [hidx]
  rcases hb : backends[c]? with _ | b
  · exfalso
    rw [List.getElem?_eq_none_iff] at hb
    omega
  · have ha : b.IsAlive = true := halive b (List.getElem?_mem hb)
    simp only [hb, ha]
    simp

/-- All-alive single-step characterization of `getNextBackend`: it returns
the backend at the cursor and advances the cursor by one modulo the pool
size. -/
lemma getNextBackend_all_alive {lb : LoadBalancer}
    (hc : lb.current < lb.backends.length)
    (halive : ∀ b ∈ lb.backends, b.Alive = true) :
    getNextBackend lb
      = (lb.backends[lb.current]?,
         { lb with current := (lb.current + 1) % lb.backends.length }) := by
  rw [getNextBackend, scanBackends_all_alive hc halive]

/-- On an all-alive pool, `n` consecutive calls return the backends at
indices `(c + 0) % N, …, (c + n - 1) % N` and leave the cursor at
`(c + n) % N`. -/
lemma selectSeq_all_alive (bs : List Backend) (n : Nat) :
    ∀ c, c < bs.length → (∀ b ∈ bs, b.Alive = true) →
    selectSeq ⟨bs, c⟩ n
      = ((List.range n).map (fun i => bs[(c + i) % bs.length]?),
         ⟨bs, (c + n) % bs.length⟩) := by
  induction n with
  | zero =>
    intro c hc _
    simp [selectSeq, Nat.mod_eq_of_lt hc]
  | succ n ih =>
    intro c hc halive
    have hpos : 0 < bs.length := by omega
    have hstep : getNextBackend ⟨bs, c⟩
        = (bs[c]?, ⟨bs, (c + 1) % bs.length⟩) :=
      @getNextBackend_all_alive ⟨bs, c⟩ hc halive
    have hc1 : (c + 1) % bs.length < bs.length := Nat.mod_lt _ hpos
    rw [selectSeq]
    simp only [hstep]
    rw [ih ((c + 1) % bs.length) hc1 halive]
    have hmod : ∀ k : Nat, ((c + 1) % bs.length + k) % bs.length
        = (c + (k + 1)) % bs.length := by
      intro k
      rw [Nat.mod_add_mod]
      congr 1
      omega
    rw [Prod.ext_iff]
    dsimp only
    constructor
    · rw [List.range_succ_eq_map, List.map_cons, List.map_map]
      congr 1
      · rw [Nat.add_zero, Nat.mod_eq_of_lt hc]
      · apply List.map_congr_left
        intro i _
        simp only [Function.comp]
        rw [hmod i]
    · rw [hmod n]

/-- The loop-index images `(c + i) % N` for `i < N` are a permutation of
`0, …, N - 1`: each pool index is scanned exactly once per full rotation. -/
lemma range_mod_rotation_perm (c N : Nat) (hc : c < N) :
    ((List.range N).map (fun i => (c + i) % N)).Perm (List.range N) := by
  have hN : 0 < N := by omega
  have hnd : ((List.range N).map (fun i => (c + i) % N)).Nodup := by
    refine List.Nodup.map_on ?_ (List.nodup_range N)
    intro x hx y hy h
    rw [List.mem_range] at hx hy
    have h1 : Nat.ModEq N (c + x) (c + y) := h
    have h2 : Nat.ModEq N x y := Nat.ModEq.add_left_cancel' c h1
    have h3 : x % N = y % N := h2
    rwa [Nat.mod_eq_of_lt hx, Nat.mod_eq_of_lt hy] at h3
  refine (List.perm_ext_iff_of_nodup hnd (List.nodup_range N)).mpr ?_
  intro a
  simp only [List.mem_map, List.mem_range]
  constructor
  · rintro ⟨i, _, rfl⟩
    exact Nat.mod_lt _ hN
  · intro ha
    by_cases hca : c ≤ a
    · refine ⟨a - c, by omega, ?_⟩
      have : c + (a - c) = a := by omega
      rw [this, Nat.mod_eq_of_lt ha]
    · refine ⟨a + N - c, by omega, ?_⟩
      have : c + (a + N - c) = a + N := by omega
      rw [this, Nat.add_mod_right, Nat.mod_eq_of_lt ha]

/-- On an all-dead pool, `n` consecutive calls all return `none` and the
state (cursor included) is untouched. -/
lemma selectSeq_all_dead {lb : LoadBalancer}
    (hdead : ∀ b ∈ lb.backends, b.Alive = false) (n : Nat) :
    selectSeq lb n = (List.replicate n none, lb) := by
  induction n with
  | zero => rfl
  | succ n ih =>
    rw [selectSeq]
    simp only [getNextBackend_all_dead hdead]
    rw [ih]
    rfl

/-- Every non-`none` result among consecutive calls is an alive backend. -/
lemma selectSeq_mem_alive {lb : LoadBalancer} {n : Nat} {b : Backend}
    (h : some b ∈ (selectSeq lb n).1) : b.Alive = true := by
  induction n generalizing lb with
  | zero => simp [selectSeq] at h
  | succ n ih =>
    rw [selectSeq] at h
    rcases List.mem_cons.mp h with h1 | h2
    · exact getNextBackend_some_alive h1.symm
    · exact ih h2

/-- `setAliveAt` touches one list entry, never the length. -/
lemma setAliveAt_length (bs : List Backend) (k : Nat) (a : Bool) :
    (setAliveAt bs k a).length = bs.length := by
  induction bs generalizing k with
  | nil => rfl
  | cons b rest ih =>
    cases k with
    | zero => rfl
    | succ k => simpa [setAliveAt] using ih k

/-- C1: for every pool of N ≥ 1 backends all of whose alive flags are true,
N consecutive `getNextBackend` calls return exactly the backends at indices
`(cursor + i) % N` for `i = 0, …, N - 1` — a fixed cyclic order determined
by the configured order and the initial cursor, visiting each index exactly
once (the index list is a permutation of `0, …, N - 1`) — and after each
call the cursor equals (selected index + 1) mod N. -/
theorem C1_round_robin_all_alive (lb : LoadBalancer)
    (hc : lb.current < lb.backends.length)
    (halive : ∀ b ∈ lb.backends, b.Alive = true) :
    (selectSeq lb lb.backends.length).1
        = (List.range lb.backends.length).map
            (fun i => lb.backends[(lb.current + i) % lb.backends.length]?)
    ∧ ((List.range lb.backends.length).map
          (fun i => (lb.current + i) % lb.backends.length)).Perm
        (List.range lb.backends.length)
    ∧ (∀ k, k < lb.backends.length →
        ((selectSeq lb (k + 1)).2).current
          = ((lb.current + k) % lb.backends.length + 1) % lb.backends.length) := by
  obtain ⟨bs, c⟩ := lb
  dsimp only at hc halive ⊢
  refine ⟨?_, range_mod_rotation_perm c bs.length hc, ?_⟩
  · rw [selectSeq_all_alive bs bs.length c hc halive]
  · intro k _
    rw [selectSeq_all_alive bs (k + 1) c hc halive]
    dsimp only
    rw [Nat.mod_add_mod]
    congr 1

/-- Concrete witness pool for C1: three alive backends, cursor 0. -/
def poolC1 : LoadBalancer :=
  ⟨[⟨"http://b1", "http://b1", true⟩, ⟨"http://b2", "http://b2", true⟩,
    ⟨"http://b3", "http://b3", true⟩], 0⟩

/-- C1 witness: the round-robin theorem instantiated on a concrete
three-backend all-alive pool (cursor property taken at the second call). -/
theorem C1_round_robin_all_alive_witness :
    (poolC1.current < poolC1.backends.length)
    ∧ (∀ b ∈ poolC1.backends, b.Alive = true)
    ∧ (selectSeq poolC1 poolC1.backends.length).1
        = (List.range poolC1.backends.length).map
            (fun i => poolC1.backends[(poolC1.current + i) % poolC1.backends.length]?)
    ∧ ((List.range poolC1.backends.length).map
          (fun i => (poolC1.current + i) % poolC1.backends.length)).Perm
        (List.range poolC1.backends.length)
    ∧ ((selectSeq poolC1 (1 + 1)).2).current
        = ((poolC1.current + 1) % poolC1.backends.length + 1)
            % poolC1.backends.length :=
  ⟨by decide, by decide,
   (C1_round_robin_all_alive poolC1 (by decide) (by decide)).1,
   (C1_round_robin_all_alive poolC1 (by decide) (by decide)).2.1,
   (C1_round_robin_all_alive poolC1 (by decide) (by decide)).2.2 1 (by decide)⟩

/-- C2: if the backend at index k has its alive flag false, no call among
any number of consecutive `getNextBackend` calls ever returns it (the pool
state, hence that flag, is only changed by `SetAlive`, which none of these
calls performs), for any cursor value. -/
theorem C2_dead_backend_never_selected (lb : LoadBalancer) (n k : Nat)
    (bk : Backend) (_hk : lb.backends[k]? = some bk)
    (hdead : bk.Alive = false) :
    ∀ r ∈ (selectSeq lb n).1, r ≠ some bk := by
  intro r hr heq
  rw [heq] at hr
  have halive := selectSeq_mem_alive hr
  rw [halive] at hdead
  cases hdead

/-- Concrete witness pool for C2: backend at index 1 is dead. -/
def poolC2 : LoadBalancer :=
  ⟨[⟨"http://a", "http://a", true⟩, ⟨"http://b", "http://b", false⟩], 0⟩

/-- The dead backend of `poolC2`. -/
def deadC2 : Backend := ⟨"http://b", "http://b", false⟩

/-- C2 witness: over three consecutive calls on `poolC2`, the dead backend
at index 1 is never returned. -/
theorem C2_dead_backend_never_selected_witness :
    poolC2.backends[1]? = some deadC2
    ∧ deadC2.Alive = false
    ∧ ∀ r ∈ (selectSeq poolC2 3).1, r ≠ some deadC2 :=
  ⟨by decide, by decide,
   C2_dead_backend_never_selected poolC2 3 1 deadC2 (by decide) (by decide)⟩

/-- C3: when every backend is dead, every one of n consecutive
`getNextBackend` calls returns `none`, and the final state — in particular
the cursor — is exactly the initial one. -/
theorem C3_all_dead_none_cursor_unchanged (lb : LoadBalancer) (n : Nat)
    (hdead : ∀ b ∈ lb.backends, b.Alive = false) :
    (selectSeq lb n).1 = List.replicate n none ∧ (selectSeq lb n).2 = lb := by
  rw [selectSeq_all_dead hdead n]
  exact ⟨rfl, rfl⟩

/-- Concrete witness pool for C3: three dead backends, cursor 2. -/
def poolC3 : LoadBalancer :=
  ⟨[⟨"http://a", "http://a", false⟩, ⟨"http://b", "http://b", false⟩,
    ⟨"http://c", "http://c", false⟩], 2⟩

/-- C3 witness: three consecutive calls on an all-dead pool all return
`none` and leave the state untouched. -/
theorem C3_all_dead_none_cursor_unchanged_witness :
    (∀ b ∈ poolC3.backends, b.Alive = false)
    ∧ (selectSeq poolC3 3).1 = List.replicate 3 none
    ∧ (selectSeq poolC3 3).2 = poolC3 :=
  ⟨by decide,
   (C3_all_dead_none_cursor_unchanged poolC3 3 (by decide)).1,
   (C3_all_dead_none_cursor_unchanged poolC3 3 (by decide)).2⟩

/-- C4: the cursor starts at 0 at construction, and whenever it is in
`[0, len(backends))` it remains so after a `getNextBackend` call and after
a `SetAlive` on any backend (which never touches the cursor or the list
length). -/
theorem C4_cursor_invariant (parseOK : String → Bool) (urls : List String)
    (lb : LoadBalancer) (k : Nat) (a : Bool)
    (hc : lb.current < lb.backends.length) :
    (NewLoadBalancer parseOK urls).current = 0
    ∧ ((getNextBackend lb).2).current < ((getNextBackend lb).2).backends.length
    ∧ (lb.setBackendAlive k a).current
        < (lb.setBackendAlive k a).backends.length := by
  refine ⟨rfl, ?_, ?_⟩
  · rw [getNextBackend]
    rcases scanBackends lb.backends lb.current (List.range lb.backends.length)
      with _ | idx
    · exact hc
    · dsimp only
      exact Nat.mod_lt _ (by omega)
  · show lb.current < (setAliveAt lb.backends k a).length
    rw [setAliveAt_length]
    exact hc

/-- Concrete witness pool for C4: one alive backend, cursor 0. -/
def poolC4 : LoadBalancer := ⟨[⟨"http://a", "http://a", true⟩], 0⟩

/-- C4 witness: cursor-range invariant instantiated on a concrete pool,
construction input, selection call and `SetAlive` call. -/
theorem C4_cursor_invariant_witness :
    (poolC4.current < poolC4.backends.length)
    ∧ (NewLoadBalancer (fun _ => true) ["http://a"]).current = 0
    ∧ ((getNextBackend poolC4).2).current
        < ((getNextBackend poolC4).2).backends.length
    ∧ (poolC4.setBackendAlive 0 false).current
        < (poolC4.setBackendAlive 0 false).backends.length :=
  ⟨by decide,
   (C4_cursor_invariant (fun _ => true) ["http://a"] poolC4 0 false (by decide)).1,
   (C4_cursor_invariant (fun _ => true) ["http://a"] poolC4 0 false (by decide)).2.1,
   (C4_cursor_invariant (fun _ => true) ["http://a"] poolC4 0 false (by decide)).2.2⟩

/-- C10: on a pool with zero backends the scan loop runs zero iterations
(no index arithmetic is reached), and `getNextBackend` totally returns
`none` with the state untouched. -/
theorem C10_empty_pool_returns_none (lb : LoadBalancer)
    (h : lb.backends = []) : getNextBackend lb = (none, lb) := by
  rw [getNextBackend, h]
  simp [scanBackends]

/-- C10 witness: the empty pool (with a nonzero cursor, to show no index
computation modulo zero occurs) yields `none`. -/
theorem C10_empty_pool_returns_none_witness :
    (⟨[], 7⟩ : LoadBalancer).backends = []
    ∧ getNextBackend ⟨[], 7⟩ = (none, ⟨[], 7⟩) :=
  ⟨rfl, C10_empty_pool_returns_none ⟨[], 7⟩ rfl⟩

/-- A health-check cycle rewrites each backend independently with
`checkBackend`. -/
lemma healthCheckLoop_backends (probe : String → ProbeResult)
    (bs : List Backend) :
    (healthCheckLoop probe bs).1 = bs.map (fun b => (checkBackend probe b).1) := by
  induction bs with
  | nil => rfl
  | cons b rest ih => simp [healthCheckLoop, ih]

/-- The alive flag written by one probe iteration is exactly the success
classification of the probe outcome, whatever the flag was before. -/
lemma checkBackend_alive (probe : String → ProbeResult) (b : Backend) :
    (checkBackend probe b).1.Alive = probeSuccess (probe b.URL) := by
  cases hp : probe b.URL with
  | failure => simp [checkBackend, hp, Backend.SetAlive, probeSuccess]
  | response status =>
    by_cases hs : status = 200
    · subst hs
      simp [checkBackend, hp, Backend.SetAlive, probeSuccess]
    · have h2 : (status == 200) = false := by simpa using hs
      simp [checkBackend, hp, hs, Backend.SetAlive, probeSuccess, h2]

/-- C6: in a health-check cycle, the resulting alive flag of every backend is
determined by its own probe outcome alone — transport failure or a non-200
status yield `false`, a 200 response yields `true` — independent of the
prior value of the flag (the right-hand side does not read the old flag). -/
theorem C6_probe_outcome_determines_alive (probe : String → ProbeResult)
    (lb : LoadBalancer) (i : Nat) :
    ((LoadBalancer.healthCheck probe lb).1.backends[i]?).map Backend.Alive
      = (lb.backends[i]?).map (fun b => probeSuccess (probe b.URL)) := by
  have hb : (LoadBalancer.healthCheck probe lb).1.backends
      = lb.backends.map (fun b => (checkBackend probe b).1) := by
    rw [LoadBalancer.healthCheck]
    exact healthCheckLoop_backends probe lb.backends
  rw [hb, List.getElem?_map]
  rcases lb.backends[i]? with _ | b
  · rfl
  · dsimp [Option.map]
    rw [checkBackend_alive]

/-- Probe iterations only log events that carry the URL of their own backend:
a recovery notice for a different URL is never produced. -/
lemma checkBackend_count_ne {probe : String → ProbeResult} {b : Backend}
    {url : String} (h : b.URL ≠ url) :
    ((checkBackend probe b).2.1).count (LogEvent.infoRecovered url) = 0 := by
  cases hp : probe b.URL with
  | failure => simp [checkBackend, hp, List.count_cons]
  | response status =>
    by_cases hs : status = 200
    · subst hs
      by_cases ha : b.IsAlive = true
      · simp [checkBackend, hp, ha, List.count_cons]
      · simp [checkBackend, hp, ha, List.count_cons, h]
    · simp [checkBackend, hp, hs, List.count_cons]

/-- A successfully probed backend logs one recovery notice when it was
dead, none when it was already alive. -/
lemma checkBackend_count_self {probe : String → ProbeResult} {b : Backend}
    (hs : probe b.URL = ProbeResult.response 200) :
    ((checkBackend probe b).2.1).count (LogEvent.infoRecovered b.URL)
      = if b.Alive then 0 else 1 := by
  cases hb : b.Alive with
  | false => simp [checkBackend, hs, Backend.IsAlive, hb, List.count_cons]
  | true => simp [checkBackend, hs, Backend.IsAlive, hb]

/-- If a URL belongs to no backend of the list, the cycle logs no recovery
notice for it. -/
lemma healthCheckLoop_count_zero {probe : String → ProbeResult}
    {url : String} :
    ∀ {bs : List Backend}, url ∉ bs.map Backend.URL →
    ((healthCheckLoop probe bs).2.1).count (LogEvent.infoRecovered url) = 0 := by
  intro bs
  induction bs with
  | nil => intro _; rfl
  | cons b rest ih =>
    intro hmem
    rw [List.map_cons, List.mem_cons] at hmem
    push_neg at hmem
    rw [healthCheckLoop]
    dsimp only
    rw [List.count_append, checkBackend_count_ne (fun he => hmem.1 he.symm),
      ih hmem.2]

/-- In one cycle over a pool with pairwise-distinct URLs, the number of
recovery notices for the backend at index k, when its probe succeeds, is 1
if it was dead and 0 if it was alive. -/
lemma healthCheckLoop_count_unique (probe : String → ProbeResult) :
    ∀ (bs : List Backend) (k : Nat) (bk : Backend),
    bs[k]? = some bk → (bs.map Backend.URL).Nodup →
    probe bk.URL = ProbeResult.response 200 →
    ((healthCheckLoop probe bs).2.1).count (LogEvent.infoRecovered bk.URL)
      = if bk.Alive then 0 else 1 := by
  intro bs
  induction bs with
  | nil =>
    intro k bk hk _ _
    simp at hk
  | cons b rest ih =>
    intro k bk hk hnd hs
    rw [List.map_cons, List.nodup_cons] at hnd
    rw [healthCheckLoop]
    dsimp only
    rw [List.count_append]
    cases k with
    | zero =>
      obtain rfl : b = bk := by simpa using hk
      rw [checkBackend_count_self hs, healthCheckLoop_count_zero hnd.1]
      simp
    | succ k =>
      rw [List.getElem?_cons_succ] at hk
      have hbk_mem : bk ∈ rest := List.getElem?_mem hk
      have hne : b.URL ≠ bk.URL := by
        intro he
        exact hnd.1 (he ▸ List.mem_map_of_mem Backend.URL hbk_mem)
      rw [checkBackend_count_ne hne, ih k bk hk hnd.2 hs]
      simp

/-- C7: in a health-check cycle over a pool with pairwise-distinct backend
URLs, a backend whose probe succeeds logs exactly one recovery notice if
its alive flag was false beforehand, and none if it was already true. -/
theorem C7_recovery_logged_exactly_once (probe : String → ProbeResult)
    (lb : LoadBalancer) (k : Nat) (bk : Backend)
    (hk : lb.backends[k]? = some bk)
    (hnd : (lb.backends.map Backend.URL).Nodup)
    (hs : probe bk.URL = ProbeResult.response 200) :
    recoveryCount bk.URL (LoadBalancer.healthCheck probe lb).2
      = if bk.Alive then 0 else 1 := by
  rw [recoveryCount, LoadBalancer.healthCheck]
  dsimp only
  simp only [List.count_cons, List.count_append, List.count_nil]
  rw [healthCheckLoop_count_unique probe lb.backends k bk hk hnd hs]
  simp

/-- Concrete witness pool for C7: a dead backend and an alive one, probes
all succeeding. -/
def poolC7 : LoadBalancer :=
  ⟨[⟨"http://a", "http://a", false⟩, ⟨"http://b", "http://b", true⟩], 0⟩

/-- The recovering backend of `poolC7`. -/
def deadC7 : Backend := ⟨"http://a", "http://a", false⟩

/-- C7 witness: with every probe answering 200, the cycle on `poolC7` logs
exactly one recovery notice for the previously dead backend. -/
theorem C7_recovery_logged_exactly_once_witness :
    poolC7.backends[0]? = some deadC7
    ∧ (poolC7.backends.map Backend.URL).Nodup
    ∧ (fun _ : String => ProbeResult.response 200) deadC7.URL
        = ProbeResult.response 200
    ∧ recoveryCount deadC7.URL
        (LoadBalancer.healthCheck (fun _ => ProbeResult.response 200) poolC7).2
      = if deadC7.Alive then 0 else 1 :=
  ⟨by decide, by decide, rfl,
   C7_recovery_logged_exactly_once (fun _ => ProbeResult.response 200)
     poolC7 0 deadC7 (by decide) (by decide) rfl⟩

/-- C8: when selection yields no backend, the dispatcher answers 503 with
the short plain-text body and forwards to no proxy (the result is the
`unavailable` constructor, not `forwardedTo`); when a backend is selected,
the request goes to the proxy handle of that backend. -/
theorem C8_unavailable_or_forwarded (lb : LoadBalancer) (r : HTTPRequest) :
    ((getNextBackend lb).1 = none →
      (lb.ServeHTTP r).1
        = DispatchResult.unavailable 503
            "Service unavailable - all backends are down")
    ∧ (∀ b : Backend, (getNextBackend lb).1 = some b →
        (lb.ServeHTTP r).1 = DispatchResult.forwardedTo b.Proxy) := by
  rcases hg : getNextBackend lb with ⟨ob, lb2⟩
  constructor
  · intro h
    dsimp only at h
    subst h
    simp [LoadBalancer.ServeHTTP, hg, StatusServiceUnavailable]
  · intro b hb
    dsimp only at hb
    subst hb
    simp [LoadBalancer.ServeHTTP, hg]

/-- Concrete all-dead pool for the C8 witness. -/
def poolC8dead : LoadBalancer :=
  ⟨[⟨"http://a", "http://a", false⟩, ⟨"http://b", "http://b", false⟩], 0⟩

/-- Concrete alive pool for the C8 witness. -/
def poolC8alive : LoadBalancer := ⟨[⟨"http://a", "http://a", true⟩], 0⟩

/-- C8 witness: on an all-dead pool the dispatcher answers 503 without
forwarding; on an alive pool it forwards to the proxy of the selected
backend. -/
theorem C8_unavailable_or_forwarded_witness :
    ((getNextBackend poolC8dead).1 = none
      ∧ (poolC8dead.ServeHTTP ⟨"GET", "/"⟩).1
          = DispatchResult.unavailable 503
              "Service unavailable - all backends are down")
    ∧ ((getNextBackend poolC8alive).1 = some ⟨"http://a", "http://a", true⟩
      ∧ (poolC8alive.ServeHTTP ⟨"GET", "/"⟩).1
          = DispatchResult.forwardedTo "http://a") :=
  ⟨⟨by decide,
    (C8_unavailable_or_forwarded poolC8dead ⟨"GET", "/"⟩).1 (by decide)⟩,
   ⟨by decide,
    (C8_unavailable_or_forwarded poolC8alive ⟨"GET", "/"⟩).2
      ⟨"http://a", "http://a", true⟩ (by decide)⟩⟩

/-- A sample parse-outcome predicate for concrete inputs: `url.Parse` fails
("missing protocol scheme") on an address whose first character is a colon,
and succeeds on the other addresses used here. -/
def sampleParse : String → Bool := fun s =>
  match s.data with
  | [] => true
  | c :: _ => !(c = ':')

/-- C5 counterexample: with the configured list "http://a,://bad" — whose
second address does not parse — startup is not fatal: the unparsable
address is skipped and the system proceeds to serve with only the
remaining parseable address. -/
theorem C5_counterexample :
    sampleParse "://bad" = false
    ∧ "://bad" ∈ splitComma "http://a,://bad"
    ∧ mainStartup "8080" "http://a,://bad" sampleParse
        (fun _ => ProbeResult.response 200)
      = StartupOutcome.running
          [StartupEvent.ranInitialHealthCheck,
           StartupEvent.startedPeriodicHealthChecks 10,
           StartupEvent.startedStatsTicker 30, StartupEvent.listening "8080"]
          ⟨[⟨"http://a", "http://a", true⟩], 0⟩ := by
  refine ⟨rfl, by decide, by decide⟩

/-- Construction keeps exactly the parseable addresses, in order. -/
lemma addBackends_eq_filter_map (parseOK : String → Bool)
    (urls : List String) :
    addBackends parseOK urls
      = (urls.filter parseOK).map
          (fun u => { URL := u, Proxy := u, Alive := true }) := by
  induction urls with
  | nil => rfl
  | cons u rest ih =>
    by_cases hu : parseOK u
    · simp [addBackends, hu, List.filter_cons, ih]
    · simp [addBackends, hu, List.filter_cons, ih]

/-- C5 amended: an unparsable address is logged and skipped at
construction; the pool consists of exactly the parseable addresses in
configured order, and startup is fatal for lack of backends precisely when
no configured address parses. -/
theorem C5_skip_unparsable_fatal_only_if_none_parse (Port backendsEnv : String)
    (parseOK : String → Bool) (probe : String → ProbeResult)
    (hPort : Port ≠ "") (hEnv : backendsEnv ≠ "") :
    (NewLoadBalancer parseOK (splitComma backendsEnv)).backends
      = ((splitComma backendsEnv).filter parseOK).map
          (fun u => { URL := u, Proxy := u, Alive := true })
    ∧ (mainStartup Port backendsEnv parseOK probe
          = StartupOutcome.fatal "No valid backend servers configured!"
        ↔ (splitComma backendsEnv).filter parseOK = []) := by
  have hadd : (NewLoadBalancer parseOK (splitComma backendsEnv)).backends
      = ((splitComma backendsEnv).filter parseOK).map
          (fun u => { URL := u, Proxy := u, Alive := true }) :=
    addBackends_eq_filter_map parseOK (splitComma backendsEnv)
  refine ⟨hadd, ?_⟩
  rw [mainStartup, if_neg hEnv, if_neg hPort]
  by_cases hf : (splitComma backendsEnv).filter parseOK = []
  · have hlen : (NewLoadBalancer parseOK (splitComma backendsEnv)).backends.length
        = 0 := by
      rw [hadd, hf]
      rfl
    rw [if_pos hlen]
    simp [hf]
  · have hlen : (NewLoadBalancer parseOK (splitComma backendsEnv)).backends.length
        ≠ 0 := by
      rw [hadd]
      simpa [List.length_eq_zero] using hf
    rw [if_neg hlen]
    constructor
    · intro h
      simp at h
    · intro h
      exact absurd h hf

/-- C5 amended witness: with one parseable and one unparsable address,
the pool holds exactly the parseable one and startup is not fatal. -/
theorem C5_skip_unparsable_fatal_only_if_none_parse_witness :
    ("8080" ≠ "") ∧ ("http://a,://bad" ≠ "")
    ∧ ((NewLoadBalancer sampleParse (splitComma "http://a,://bad")).backends
        = ((splitComma "http://a,://bad").filter sampleParse).map
            (fun u => { URL := u, Proxy := u, Alive := true })
      ∧ (mainStartup "8080" "http://a,://bad" sampleParse
            (fun _ => ProbeResult.response 200)
          = StartupOutcome.fatal "No valid backend servers configured!"
        ↔ (splitComma "http://a,://bad").filter sampleParse = [])) :=
  ⟨by decide, by decide,
   C5_skip_unparsable_fatal_only_if_none_parse "8080" "http://a,://bad"
     sampleParse (fun _ => ProbeResult.response 200) (by decide) (by decide)⟩

/-- C9 counterexample: `startHealthChecks` itself performs no health check
before the periodic scheduler begins — its only synchronous startup action
is starting the scheduler; the first check it schedules runs one full
interval later. -/
theorem C9_counterexample :
    StartupEvent.ranInitialHealthCheck ∉ startHealthChecksEvents 10
    ∧ startHealthChecksEvents 10
        = [StartupEvent.startedPeriodicHealthChecks 10] := by
  decide

/-- C9 amended: the first health check is performed explicitly once,
synchronously, by `main` — not by `startHealthChecks` — before
`startHealthChecks` starts the periodic scheduler; so whenever startup
reaches the serving state, the check-ran event precedes the
scheduler-start event and the served pool state already reflects one
health-check cycle. -/
theorem C9_first_check_in_main_before_scheduler (Port backendsEnv : String)
    (parseOK : String → Bool) (probe : String → ProbeResult)
    (events : List StartupEvent) (lbRun : LoadBalancer)
    (h : mainStartup Port backendsEnv parseOK probe
          = StartupOutcome.running events lbRun) :
    events = StartupEvent.ranInitialHealthCheck
        :: (startHealthChecksEvents 10
            ++ [StartupEvent.startedStatsTicker 30,
                StartupEvent.listening Port])
    ∧ StartupEvent.ranInitialHealthCheck ∉ startHealthChecksEvents 10
    ∧ lbRun = (LoadBalancer.healthCheck probe
        (NewLoadBalancer parseOK (splitComma backendsEnv))).1 := by
  rw [mainStartup] at h
  by_cases h1 : backendsEnv = ""
  · rw [if_pos h1] at h
    simp at h
  · rw [if_neg h1] at h
    by_cases h2 : Port = ""
    · rw [if_pos h2] at h
      simp at h
    · rw [if_neg h2] at h
      dsimp only at h
      by_cases h3 :
          (NewLoadBalancer parseOK (splitComma backendsEnv)).backends.length = 0
      · rw [if_pos h3] at h
        simp at h
      · rw [if_neg h3] at h
        injection h with he hl
        exact ⟨he.symm, by decide, hl.symm⟩

/-- C9 amended witness: a concrete startup run with one parseable backend
and succeeding probes. -/
theorem C9_first_check_in_main_before_scheduler_witness :
    mainStartup "8080" "http://a" sampleParse (fun _ => ProbeResult.response 200)
        = StartupOutcome.running
            [StartupEvent.ranInitialHealthCheck,
             StartupEvent.startedPeriodicHealthChecks 10,
             StartupEvent.startedStatsTicker 30, StartupEvent.listening "8080"]
            ⟨[⟨"http://a", "http://a", true⟩], 0⟩
    ∧ ([StartupEvent.ranInitialHealthCheck,
        StartupEvent.startedPeriodicHealthChecks 10,
        StartupEvent.startedStatsTicker 30, StartupEvent.listening "8080"]
          = StartupEvent.ranInitialHealthCheck
              :: (startHealthChecksEvents 10
                  ++ [StartupEvent.startedStatsTicker 30,
                      StartupEvent.listening "8080"])
      ∧ StartupEvent.ranInitialHealthCheck ∉ startHealthChecksEvents 10
      ∧ (⟨[⟨"http://a", "http://a", true⟩], 0⟩ : LoadBalancer)
          = (LoadBalancer.healthCheck (fun _ => ProbeResult.response 200)
              (NewLoadBalancer sampleParse (splitComma "http://a"))).1) :=
  ⟨by decide,
   C9_first_check_in_main_before_scheduler "8080" "http://a" sampleParse
     (fun _ => ProbeResult.response 200)
     [StartupEvent.ranInitialHealthCheck,
      StartupEvent.startedPeriodicHealthChecks 10,
      StartupEvent.startedStatsTicker 30, StartupEvent.listening "8080"]
     ⟨[⟨"http://a", "http://a", true⟩], 0⟩ (by decide)⟩

end LB
